import Mathlib

/-!
Verification of the result-filter stage (`process_results`) and the pipeline
control flow of `GetSubgenome_M3.py`.

The distance column of the raw table is modelled by the rational numbers:
the script only compares, selects and copies distance values, never does
arithmetic on them, so any linearly ordered field models the comparisons.

`pandas` facts the embedding relies on (each noted again at its use site):
  * `df.groupby(col)` iterates the groups in sorted key order (`sort=True`
    is the default) and keeps the original row order inside each group;
  * `group.nsmallest(n, col)` with the default `keep="first"` returns the
    `n` rows of smallest value sorted ascending, breaking ties by original
    position (the implementation argsorts with a stable mergesort); a stable
    sort being a unique function of the comparison key, it is embedded here
    with Mathlib's stable `List.insertionSort`;
  * `final_df.sort_values(by=["Rchr", "MashD"])` sorts on several columns,
    which pandas performs with `numpy.lexsort`, a stable lexicographic sort;
  * `pd.DataFrame([])` is a frame with no columns at all, so
    `sort_values(by=["Rchr", "MashD"])` on it raises `KeyError`.
-/

namespace DivM3

/-- One row of the raw tab-separated distance table, as read by
`pd.read_csv(input_file, sep="\t", header=None, names=["Reference", "Query",
"Distance", "PValue", "MatchingHashes"])` (line 124 of the script). -/
structure DistRecord where
  Reference : String
  Query : String
  Distance : ℚ
  PValue : ℚ
  MatchingHashes : String
deriving DecidableEq, Repr

/-- One row of the filtered output table built at lines 136-141 of the
script: reference chromosome id, query chromosome id, subgenome rank label
and mash distance. -/
structure FilteredRecord where
  Rchr : String
  Qchr : String
  Subg : String
  MashD : ℚ
deriving DecidableEq, Repr

/-- Splitting a character list at every `'/'`, keeping empty pieces. -/
def splitSlash : List Char → List (List Char)
  | [] => [[]]
  | c :: cs =>
    match splitSlash cs with
    | [] => [[]]
    | r :: rs => if c = '/' then [] :: r :: rs else (c :: r) :: rs

/-- Index of the last occurrence of a dot in a list of characters. -/
def lastDotIdx (cs : List Char) : Option Nat :=
  cs.enum.foldl (fun acc p => if p.2 = '.' then some p.1 else acc) none

/-- The `stem` of a file name in the sense of `pathlib`: the name without
its final suffix, where a suffix starts at the last dot provided that dot
is neither the first nor the last character of the name. -/
def stemChars (cs : List Char) : List Char :=
  match lastDotIdx cs with
  | some i => if 0 < i ∧ i + 1 < cs.length then cs.take i else cs
  | none => cs

/-- `Path(path).stem` (lines 128-129 of the script): the last path
component (`pathlib` drops empty and `"."` components when it parses the
path), with the final extension stripped. -/
def stem (path : String) : String :=
  let comps := (splitSlash path.toList).filter (fun c => decide (c ≠ [] ∧ c ≠ ['.']))
  String.mk (stemChars (comps.getLastD []))

/-- Lexicographic comparison of strings by code point, as Python compares
the string keys when sorting.  It is stated on the character lists
(`String.data`) so that it evaluates by kernel reduction; `strLt_iff` below
identifies it with the standard order on `String`. -/
def strLt (a b : String) : Prop := a.data < b.data

/-- The corresponding non-strict comparison. -/
def strLe (a b : String) : Prop := ¬strLt b a

instance : DecidableRel strLt := fun a b =>
  inferInstanceAs (Decidable (a.data < b.data))

instance : DecidableRel strLe := fun a b =>
  inferInstanceAs (Decidable ¬strLt b a)

theorem strLt_iff {a b : String} : strLt a b ↔ a < b :=
  String.lt_iff_toList_lt.symm

theorem strLe_iff {a b : String} : strLe a b ↔ a ≤ b :=
  not_congr strLt_iff

instance : IsTotal String strLe :=
  ⟨fun a b => (le_total a b).imp strLe_iff.mpr strLe_iff.mpr⟩

instance : IsTrans String strLe :=
  ⟨fun _ _ _ h₁ h₂ => strLe_iff.mpr (le_trans (strLe_iff.mp h₁) (strLe_iff.mp h₂))⟩

instance : IsAntisymm String strLe :=
  ⟨fun _ _ h₁ h₂ => le_antisymm (strLe_iff.mp h₁) (strLe_iff.mp h₂)⟩

/-- The working row of the filter: the two derived chromosome-id columns
added at lines 128-129 together with the distance column.  The remaining
raw columns are never read again by `process_results`, so they are not
carried along. -/
structure MashRow where
  RefChr : String
  QryChr : String
  Distance : ℚ
deriving DecidableEq, Repr

/-- Lines 128-129: derive `RefChr` and `QryChr` from the file paths. -/
def rowsOf (records : List DistRecord) : List MashRow :=
  records.map fun r => ⟨stem r.Reference, stem r.Query, r.Distance⟩

/-- Comparison of working rows by their distance column: the sort key of
`group.nsmallest(n_subgenomes, "Distance")` at line 134. -/
def rowLe (a b : MashRow) : Prop := a.Distance ≤ b.Distance

instance : DecidableRel rowLe := fun a b =>
  inferInstanceAs (Decidable (a.Distance ≤ b.Distance))

instance : IsTotal MashRow rowLe := ⟨fun a b => le_total a.Distance b.Distance⟩

instance : IsTrans MashRow rowLe := ⟨fun _ _ _ h₁ h₂ => le_trans h₁ h₂⟩

/-- Comparison of output rows by the pair `(Rchr, MashD)` in lexicographic
order: the sort key of `final_df.sort_values(by=["Rchr", "MashD"])` at
line 145. -/
def recLe (a b : FilteredRecord) : Prop :=
  strLt a.Rchr b.Rchr ∨ (a.Rchr = b.Rchr ∧ a.MashD ≤ b.MashD)

instance : DecidableRel recLe := fun a b =>
  inferInstanceAs (Decidable (strLt a.Rchr b.Rchr ∨ (a.Rchr = b.Rchr ∧ a.MashD ≤ b.MashD)))

instance : IsTotal FilteredRecord recLe := by
  constructor
  intro a b
  rcases lt_trichotomy a.Rchr b.Rchr with h | h | h
  · exact Or.inl (Or.inl (strLt_iff.mpr h))
  · rcases le_total a.MashD b.MashD with hd | hd
    · exact Or.inl (Or.inr ⟨h, hd⟩)
    · exact Or.inr (Or.inr ⟨h.symm, hd⟩)
  · exact Or.inr (Or.inl (strLt_iff.mpr h))

instance : IsTrans FilteredRecord recLe := by
  constructor
  intro a b c hab hbc
  rcases hab with hab | ⟨hab, had⟩
  · rcases hbc with hbc | ⟨hbc, _⟩
    · exact Or.inl (strLt_iff.mpr (lt_trans (strLt_iff.mp hab) (strLt_iff.mp hbc)))
    · exact Or.inl (hbc ▸ hab)
  · rcases hbc with hbc | ⟨hbc, hbd⟩
    · exact Or.inl (hab ▸ hbc)
    · exact Or.inr ⟨hab.trans hbc, had.trans hbd⟩

/-- The rows of one `groupby("RefChr")` group (line 133): the rows whose
derived reference chromosome id equals the group key, in input order. -/
def groupRows (rows : List MashRow) (k : String) : List MashRow :=
  rows.filter (fun x => decide (x.RefChr = k))

/-- Line 134, `group.nsmallest(n, "Distance")`: the `n` rows of the group
with smallest distance, sorted ascending, ties kept in input order
(`keep="first"`), i.e. a stable sort by distance followed by `take n`. -/
def topN (rows : List MashRow) (k : String) (n : Nat) : List MashRow :=
  ((groupRows rows k).insertionSort rowLe).take n

/-- Lines 135-141, `for i, (idx, row) in enumerate(top_n.iterrows(), 1)`:
turn the selected rows into output records labelled `SG1`, `SG2`, ... in
order, starting the count at `i`. -/
def labelFrom (i : Nat) : List MashRow → List FilteredRecord
  | [] => []
  | x :: xs => ⟨x.RefChr, x.QryChr, "SG" ++ toString i, x.Distance⟩ :: labelFrom (i + 1) xs

/-- The group keys in the order `df.groupby("RefChr")` yields them: the
distinct values of the `RefChr` column in ascending order. -/
def sortedKeys (rows : List MashRow) : List String :=
  ((rows.map MashRow.RefChr).insertionSort strLe).dedup

/-- Lines 131-141: the `result` list built by the group loop, one labelled
block per group key. -/
def buildResult (records : List DistRecord) (n : Nat) : List FilteredRecord :=
  ((sortedKeys (rowsOf records)).map
    (fun k => labelFrom 1 (topN (rowsOf records) k n))).flatten

/-- Lines 121-151, `process_results` as a function from the parsed input
table to the final table.  When the group loop produces no rows at all,
`pd.DataFrame(result)` is a frame without columns and
`sort_values(by=["Rchr", "MashD"])` raises `KeyError` (line 145); this is
modelled by the `Except.error` branch.  Otherwise the final frame is the
stable lexicographic sort of `result` by `(Rchr, MashD)`. -/
def process_results (records : List DistRecord) (n_subgenomes : Nat) :
    Except String (List FilteredRecord) :=
  if buildResult records n_subgenomes = [] then Except.error "KeyError: Rchr"
  else Except.ok ((buildResult records n_subgenomes).insertionSort recLe)

/-- The projection of an output record back to a working row; used to state
what re-filtering an already produced table means. -/
def toRow (f : FilteredRecord) : MashRow :=
  ⟨f.Rchr, f.Qchr, f.MashD⟩

/-- Reading a filtered record back in as a raw distance record, with the
chromosome ids as the file paths.  The `PValue` and `MatchingHashes`
columns are never read by `process_results`, so their values are
irrelevant; zero and the empty string are used. -/
def refilterRecord (f : FilteredRecord) : DistRecord :=
  ⟨f.Rchr, f.Qchr, f.MashD, 0, ""⟩

/-! ### Control flow of `run_calculation` (lines 296-316)

The three external tools are modelled by the exit codes they return; each
wrapper (`split_fasta`, `build_mash_db`, `calculate_distances`) runs its
subprocess with `check=True`, catches `CalledProcessError` and calls
`sys.exit` with a message naming the step, which terminates the whole
process, so no later step runs. -/

/-- The stages of the calculation pipeline, in execution order. -/
inductive PipelineStep where
  | splitRef
  | splitQry
  | sketch
  | dist
  | processStep
deriving DecidableEq, Repr

/-- The exit codes returned by the four external tool invocations of one
`run_calculation` run. -/
structure ToolExitCodes where
  seqkitSplitRef : Nat
  seqkitSplitQry : Nat
  mashSketch : Nat
  mashDist : Nat
deriving DecidableEq, Repr

/-- Lines 57-71: `subprocess.run(cmd, check=True)` raises on a nonzero
exit code and the handler calls `sys.exit("[ERROR] seqkit split failed: ...")`. -/
def split_fasta (exitCode : Nat) : Except String Unit :=
  if exitCode = 0 then Except.ok () else Except.error "[ERROR] seqkit split failed"

/-- Lines 72-86: nonzero exit code of `mash sketch` aborts the run. -/
def build_mash_db (exitCode : Nat) : Except String Unit :=
  if exitCode = 0 then Except.ok () else Except.error "[ERROR] Mash database construction failed"

/-- Lines 88-102: nonzero exit code of `mash dist` aborts the run. -/
def calculate_distances (exitCode : Nat) : Except String Unit :=
  if exitCode = 0 then Except.ok () else Except.error "[ERROR] Distance calculation failed"

/-- Lines 296-316, the control flow of `run_calculation`: the external
steps run in order, and a failing step terminates the process via
`sys.exit`.  The value is the list of stages that were completed, paired
with the fatal error message when the run aborted. -/
def run_calculation (e : ToolExitCodes) : List PipelineStep × Option String :=
  match split_fasta e.seqkitSplitRef with
  | .error m => ([], some m)
  | .ok _ =>
    match split_fasta e.seqkitSplitQry with
    | .error m => ([.splitRef], some m)
    | .ok _ =>
      match build_mash_db e.mashSketch with
      | .error m => ([.splitRef, .splitQry], some m)
      | .ok _ =>
        match calculate_distances e.mashDist with
        | .error m => ([.splitRef, .splitQry, .sketch], some m)
        | .ok _ => ([.splitRef, .splitQry, .sketch, .dist, .processStep], none)

end DivM3

deriving instance DecidableEq for Except

namespace DivM3

/-! ### Structure of `labelFrom` -/

theorem length_labelFrom (i : Nat) (rs : List MashRow) :
    (labelFrom i rs).length = rs.length := by
  induction rs generalizing i with
  | nil => rfl
  | cons x xs ih => simp [labelFrom, ih]

theorem mem_labelFrom {f : FilteredRecord} {i : Nat} {rs : List MashRow}
    (h : f ∈ labelFrom i rs) :
    ∃ x ∈ rs, f.Rchr = x.RefChr ∧ f.Qchr = x.QryChr ∧ f.MashD = x.Distance := by
  induction rs generalizing i with
  | nil => simp [labelFrom] at h
  | cons x xs ih =>
    rcases (List.mem_cons).1 h with h | h
    · exact ⟨x, List.mem_cons_self x xs, by simp [h]⟩
    · obtain ⟨y, hy, hf⟩ := ih h
      exact ⟨y, List.mem_cons_of_mem x hy, hf⟩

theorem countP_labelFrom (i : Nat) (rs : List MashRow) (k : String) :
    (labelFrom i rs).countP (fun f => decide (f.Rchr = k)) =
      rs.countP (fun x => decide (x.RefChr = k)) := by
  induction rs generalizing i with
  | nil => rfl
  | cons x xs ih => simp [labelFrom, List.countP_cons, ih]

theorem map_toRow_labelFrom (i : Nat) (rs : List MashRow) :
    (labelFrom i rs).map toRow = rs := by
  induction rs generalizing i with
  | nil => rfl
  | cons x xs ih => simp [labelFrom, toRow, ih]

theorem Subg_get_labelFrom (i : Nat) (rs : List MashRow) (j : Nat)
    (h : j < (labelFrom i rs).length) :
    ((labelFrom i rs).get ⟨j, h⟩).Subg = "SG" ++ toString (i + j) := by
  induction rs generalizing i j with
  | nil => simp [labelFrom] at h
  | cons x xs ih =>
    cases j with
    | zero => simp [labelFrom]
    | succ j =>
      have h' : j < (labelFrom (i + 1) xs).length := by
        simpa [labelFrom] using h
      have := ih (i + 1) j h'
      simpa [labelFrom, Nat.add_comm, Nat.add_left_comm] using this

theorem pairwise_labelFrom {rs : List MashRow} (i : Nat) (h : rs.Pairwise rowLe) :
    (labelFrom i rs).Pairwise (fun a b => a.MashD ≤ b.MashD) := by
  induction rs generalizing i with
  | nil => exact List.Pairwise.nil
  | cons x xs ih =>
    rcases List.pairwise_cons.1 h with ⟨hx, hxs⟩
    refine List.pairwise_cons.2 ⟨?_, ih (i + 1) hxs⟩
    intro g hg
    obtain ⟨y, hy, _, _, hd⟩ := mem_labelFrom hg
    simpa [hd] using hx y hy

theorem Rchr_labelFrom {k : String} {rs : List MashRow} (i : Nat)
    (hrs : ∀ x ∈ rs, x.RefChr = k) :
    ∀ f ∈ labelFrom i rs, f.Rchr = k := by
  intro f hf
  obtain ⟨x, hx, hfr, _, _⟩ := mem_labelFrom hf
  rw [hfr]
  exact hrs x hx

/-! ### Structure of `groupRows`, `topN` and `sortedKeys` -/

theorem mem_groupRows {rows : List MashRow} {k : String} {x : MashRow} :
    x ∈ groupRows rows k ↔ x ∈ rows ∧ x.RefChr = k := by
  simp [groupRows, List.mem_filter]

theorem length_groupRows (rows : List MashRow) (k : String) :
    (groupRows rows k).length = rows.countP (fun x => decide (x.RefChr = k)) :=
  (List.countP_eq_length_filter _ _).symm

theorem topN_subset {rows : List MashRow} {k : String} {n : Nat} {x : MashRow}
    (h : x ∈ topN rows k n) : x ∈ groupRows rows k := by
  have := List.take_subset n _ h
  exact (List.mem_insertionSort rowLe).1 this

theorem RefChr_topN {rows : List MashRow} {k : String} {n : Nat} :
    ∀ x ∈ topN rows k n, x.RefChr = k := fun _ hx =>
  (mem_groupRows.1 (topN_subset hx)).2

theorem pairwise_topN (rows : List MashRow) (k : String) (n : Nat) :
    (topN rows k n).Pairwise rowLe :=
  List.Pairwise.sublist (List.take_sublist n _)
    (List.sorted_insertionSort rowLe (groupRows rows k))

theorem length_topN (rows : List MashRow) (k : String) (n : Nat) :
    (topN rows k n).length = min n (groupRows rows k).length := by
  simp [topN, List.length_insertionSort]

theorem sortedKeys_sorted (rows : List MashRow) :
    (sortedKeys rows).Sorted strLe :=
  List.Pairwise.sublist (List.dedup_sublist _) (List.sorted_insertionSort _ _)

theorem sortedKeys_nodup (rows : List MashRow) : (sortedKeys rows).Nodup :=
  List.nodup_dedup _

theorem mem_sortedKeys {rows : List MashRow} {k : String} :
    k ∈ sortedKeys rows ↔ k ∈ rows.map MashRow.RefChr := by
  rw [sortedKeys, List.mem_dedup, List.mem_insertionSort]

theorem sortedKeys_pairwise_lt (rows : List MashRow) :
    (sortedKeys rows).Pairwise strLt := by
  have h₁ := sortedKeys_sorted rows
  have h₂ := sortedKeys_nodup rows
  exact (h₁.and h₂).imp fun h =>
    strLt_iff.mpr (lt_of_le_of_ne (strLe_iff.mp h.1) h.2)

/-! ### Filtering a flatten of keyed blocks -/

theorem filter_flatten_keyed {β : Type} (key : β → String) :
    ∀ (ks : List String) (F : String → List β),
      ks.Nodup → (∀ k ∈ ks, ∀ x ∈ F k, key x = k) → ∀ k : String,
      ((ks.map F).flatten).filter (fun x => decide (key x = k)) =
        if k ∈ ks then F k else []
  | [], _, _, _, k => by simp
  | k₀ :: ks, F, hnd, hF, k => by
    rcases List.nodup_cons.1 hnd with ⟨hk₀, hnd'⟩
    have hF' : ∀ k' ∈ ks, ∀ x ∈ F k', key x = k' := fun k' hk' =>
      hF k' (List.mem_cons_of_mem _ hk')
    have ih := filter_flatten_keyed key ks F hnd' hF' k
    by_cases hkk : k₀ = k
    · subst hkk
      have hhead : (F k₀).filter (fun x => decide (key x = k₀)) = F k₀ :=
        List.filter_eq_self.2 fun x hx => by
          simp [hF k₀ (List.mem_cons_self _ _) x hx]
      have htail : ((ks.map F).flatten).filter (fun x => decide (key x = k₀)) = [] := by
        rw [ih, if_neg hk₀]
      simp [List.filter_append, hhead, htail]
    · have hhead : (F k₀).filter (fun x => decide (key x = k)) = [] :=
        List.filter_eq_nil_iff.2 fun x hx => by
          simp [hF k₀ (List.mem_cons_self _ _) x hx, hkk]
      have hmem : k ∈ k₀ :: ks ↔ k ∈ ks := by
        constructor
        · intro h
          rcases List.mem_cons.1 h with h | h
          · exact absurd h.symm hkk
          · exact h
        · exact List.mem_cons_of_mem _
      rw [List.map_cons, List.flatten_cons, List.filter_append, hhead,
        List.nil_append, ih]
      exact if_congr hmem.symm rfl rfl

/-! ### Structure of `buildResult` and `process_results` -/

theorem Rchr_block (records : List DistRecord) (n : Nat) :
    ∀ k ∈ sortedKeys (rowsOf records),
      ∀ f ∈ labelFrom 1 (topN (rowsOf records) k n), f.Rchr = k := fun _ _ =>
  Rchr_labelFrom 1 (RefChr_topN)

theorem filter_buildResult (records : List DistRecord) (n : Nat) (k : String) :
    (buildResult records n).filter (fun f => decide (f.Rchr = k)) =
      if k ∈ sortedKeys (rowsOf records)
      then labelFrom 1 (topN (rowsOf records) k n) else [] := by
  rw [buildResult]
  exact filter_flatten_keyed FilteredRecord.Rchr _ _
    (sortedKeys_nodup _) (Rchr_block records n) k

theorem pairwise_buildResult (records : List DistRecord) (n : Nat) :
    (buildResult records n).Pairwise recLe := by
  rw [buildResult, List.pairwise_flatten]
  constructor
  · intro l hl
    obtain ⟨k, hk, rfl⟩ := List.mem_map.1 hl
    have hpw := pairwise_labelFrom 1 (pairwise_topN (rowsOf records) k n)
    have hrk := Rchr_block records n k hk
    exact List.Pairwise.imp_of_mem
      (fun ha hb hd => Or.inr ⟨(hrk _ ha).trans (hrk _ hb).symm, hd⟩) hpw
  · rw [List.pairwise_map]
    refine List.Pairwise.imp_of_mem ?_ (sortedKeys_pairwise_lt (rowsOf records))
    intro k₁ k₂ h₁ h₂ hlt x hx y hy
    exact Or.inl (by
      rw [Rchr_block records n k₁ h₁ x hx, Rchr_block records n k₂ h₂ y hy]
      exact hlt)

theorem sortFinal_buildResult (records : List DistRecord) (n : Nat) :
    (buildResult records n).insertionSort recLe = buildResult records n :=
  List.Sorted.insertionSort_eq (pairwise_buildResult records n)

theorem process_results_ok {records : List DistRecord} {n : Nat}
    {out : List FilteredRecord} (h : process_results records n = Except.ok out) :
    out = buildResult records n ∧ buildResult records n ≠ [] := by
  by_cases hb : buildResult records n = []
  · rw [process_results, if_pos hb] at h
    exact absurd h (by simp)
  · rw [process_results, if_neg hb, sortFinal_buildResult] at h
    exact ⟨(Except.ok.inj h).symm, hb⟩

theorem process_results_of_ne {records : List DistRecord} {n : Nat}
    (hb : buildResult records n ≠ []) :
    process_results records n = Except.ok (buildResult records n) := by
  rw [process_results, if_neg hb, sortFinal_buildResult]

theorem countP_buildResult (records : List DistRecord) (n : Nat) (k : String) :
    (buildResult records n).countP (fun f => decide (f.Rchr = k)) =
      min n (records.countP (fun r => decide (stem r.Reference = k))) := by
  rw [List.countP_eq_length_filter, filter_buildResult]
  have hcount : (rowsOf records).countP (fun x => decide (x.RefChr = k)) =
      records.countP (fun r => decide (stem r.Reference = k)) := by
    rw [rowsOf, List.countP_map]
    rfl
  by_cases hk : k ∈ sortedKeys (rowsOf records)
  · rw [if_pos hk, length_labelFrom, length_topN, length_groupRows, hcount]
  · rw [if_neg hk, List.length_nil]
    have hz : records.countP (fun r => decide (stem r.Reference = k)) = 0 := by
      rw [List.countP_eq_zero]
      intro r hr hstem
      apply hk
      rw [mem_sortedKeys]
      refine List.mem_map.2 ⟨⟨stem r.Reference, stem r.Query, r.Distance⟩, ?_, ?_⟩
      · exact List.mem_map.2 ⟨r, hr, rfl⟩
      · exact of_decide_eq_true hstem
    rw [hz, Nat.min_zero]

/-! ### Stability of the selection step

The rows of one distance value keep their input order through the stable
sort by distance, so the selected equal-distance rows are always the
earliest ones. -/

theorem filter_dist_orderedInsert (d : ℚ) (a : MashRow) (l : List MashRow) :
    (List.orderedInsert rowLe a l).filter (fun x => decide (x.Distance = d)) =
      if a.Distance = d
      then a :: l.filter (fun x => decide (x.Distance = d))
      else l.filter (fun x => decide (x.Distance = d)) := by
  induction l with
  | nil =>
    by_cases had : a.Distance = d <;> simp [List.orderedInsert, had]
  | cons b l ih =>
    rw [List.orderedInsert]
    by_cases hab : rowLe a b
    · rw [if_pos hab]
      by_cases had : a.Distance = d <;> simp [had]
    · rw [if_neg hab]
      have hab' : ¬a.Distance ≤ b.Distance := hab
      by_cases had : a.Distance = d
      · have hbd : ¬b.Distance = d := fun hb => hab' (le_of_eq (had.trans hb.symm))
        rw [List.filter_cons, ih]
        simp [had, hbd]
      · rw [List.filter_cons, ih]
        simp only [had, if_false, List.filter_cons]

theorem filter_dist_insertionSort (d : ℚ) (l : List MashRow) :
    (l.insertionSort rowLe).filter (fun x => decide (x.Distance = d)) =
      l.filter (fun x => decide (x.Distance = d)) := by
  induction l with
  | nil => rfl
  | cons a l ih =>
    rw [List.insertionSort, filter_dist_orderedInsert, ih, List.filter_cons]
    by_cases had : a.Distance = d <;> simp [had]

theorem take_filter_of_filter_take {β : Type} (l : List β) (p : β → Bool) (n : Nat) :
    (l.filter p).take (((l.take n).filter p).length) = (l.take n).filter p := by
  have hsplit : l.filter p = (l.take n).filter p ++ (l.drop n).filter p := by
    rw [← List.filter_append, List.take_append_drop]
  rw [hsplit]
  exact List.take_left _ _

/-! ### The claims -/

/-- C1: for every input distance table, every subgenome count `K` and every
reference-chromosome id `k`, the output of the result filter contains
exactly `min K (number of input records whose reference stem is k)` rows
for `k`. -/
theorem C1_group_sizes (records : List DistRecord) (K : Nat)
    (out : List FilteredRecord) (h : process_results records K = Except.ok out)
    (k : String) :
    out.countP (fun f => decide (f.Rchr = k)) =
      min K (records.countP (fun r => decide (stem r.Reference = k))) := by
  obtain ⟨rfl, -⟩ := process_results_ok h
  exact countP_buildResult records K k

/-- Witness for C1 at a concrete two-record table with `K = 1`. -/
theorem C1_group_sizes_witness :
    process_results
        [⟨"c.fa", "q1.fa", mkRat 5 100, 0, ""⟩, ⟨"c.fa", "q2.fa", mkRat 1 100, 0, ""⟩] 1 =
      Except.ok [⟨"c", "q2", "SG1", mkRat 1 100⟩] ∧
    ([⟨"c", "q2", "SG1", mkRat 1 100⟩] : List FilteredRecord).countP
        (fun f => decide (f.Rchr = "c")) =
      min 1 (([⟨"c.fa", "q1.fa", mkRat 5 100, 0, ""⟩, ⟨"c.fa", "q2.fa", mkRat 1 100, 0, ""⟩] :
          List DistRecord).countP (fun r => decide (stem r.Reference = "c"))) :=
  ⟨by decide,
   C1_group_sizes
     [⟨"c.fa", "q1.fa", mkRat 5 100, 0, ""⟩, ⟨"c.fa", "q2.fa", mkRat 1 100, 0, ""⟩] 1
     [⟨"c", "q2", "SG1", mkRat 1 100⟩] (by decide) "c"⟩

/-- C2: contrary to the claim, on the empty input table the filter does
not return an empty table: the group loop produces no rows, so
`pd.DataFrame(result)` is a frame without columns and
`final_df.sort_values(by=["Rchr", "MashD"])` at line 145 raises
`KeyError`.  The run therefore aborts with an error on empty input, for
every subgenome count. -/
theorem C2_empty_input_raises (K : Nat) :
    process_results [] K = Except.error "KeyError: Rchr" := rfl

/-- C3: within each reference-chromosome group of the output, the rows are
sorted by non-decreasing distance and the `j`-th row of the group carries
the rank label `SG(j+1)`, so the labels `SG1..SGn` are assigned in
ascending order of distance. -/
theorem C3_labels_ascend_distance (records : List DistRecord) (K : Nat)
    (out : List FilteredRecord) (h : process_results records K = Except.ok out)
    (k : String) :
    (out.filter (fun f => decide (f.Rchr = k))).Pairwise
        (fun a b => a.MashD ≤ b.MashD) ∧
      ∀ (j : Nat) (hj : j < (out.filter (fun f => decide (f.Rchr = k))).length),
        ((out.filter (fun f => decide (f.Rchr = k))).get ⟨j, hj⟩).Subg =
          "SG" ++ toString (j + 1) := by
  obtain ⟨rfl, -⟩ := process_results_ok h
  rw [filter_buildResult]
  by_cases hk : k ∈ sortedKeys (rowsOf records)
  · rw [if_pos hk]
    refine ⟨pairwise_labelFrom 1 (pairwise_topN _ _ _), ?_⟩
    intro j hj
    rw [Subg_get_labelFrom, Nat.add_comm]
  · rw [if_neg hk]
    exact ⟨List.Pairwise.nil, by intro j hj; simp at hj⟩

/-- Witness for C3 at a concrete table whose input order is opposite to
the distance order. -/
theorem C3_labels_ascend_distance_witness :
    process_results
        [⟨"c.fa", "q1.fa", mkRat 5 100, 0, ""⟩, ⟨"c.fa", "q2.fa", mkRat 1 100, 0, ""⟩] 2 =
      Except.ok [⟨"c", "q2", "SG1", mkRat 1 100⟩, ⟨"c", "q1", "SG2", mkRat 5 100⟩] ∧
    (([⟨"c", "q2", "SG1", mkRat 1 100⟩, ⟨"c", "q1", "SG2", mkRat 5 100⟩] :
        List FilteredRecord).filter (fun f => decide (f.Rchr = "c"))).Pairwise
      (fun a b => a.MashD ≤ b.MashD) :=
  ⟨by decide,
   (C3_labels_ascend_distance
     [⟨"c.fa", "q1.fa", mkRat 5 100, 0, ""⟩, ⟨"c.fa", "q2.fa", mkRat 1 100, 0, ""⟩] 2
     [⟨"c", "q2", "SG1", mkRat 1 100⟩, ⟨"c", "q1", "SG2", mkRat 5 100⟩] (by decide) "c").1⟩

/-- C4, counterexample: with two equal-distance records in one group and
`K = 2`, the filter outputs both rows with labels `SG1` and `SG2` but
equal distances, so the labels are not strictly increasing in distance. -/
theorem C4_strict_counterexample :
    process_results
        [⟨"c.fa", "q1.fa", mkRat 5 100, 0, ""⟩, ⟨"c.fa", "q2.fa", mkRat 5 100, 0, ""⟩] 2 =
      Except.ok [⟨"c", "q1", "SG1", mkRat 5 100⟩, ⟨"c", "q2", "SG2", mkRat 5 100⟩] ∧
    ¬ ([⟨"c", "q1", "SG1", mkRat 5 100⟩, ⟨"c", "q2", "SG2", mkRat 5 100⟩] :
        List FilteredRecord).Pairwise
      (fun a b => a.Rchr = b.Rchr → a.MashD < b.MashD) := by
  constructor
  · decide
  · intro hp
    have := (List.pairwise_cons.1 hp).1 ⟨"c", "q2", "SG2", mkRat 5 100⟩ (by decide) rfl
    exact absurd this (by decide)

/-- C4, amended: within one reference-chromosome group of the output the
rank labels are non-decreasing in distance (not strictly increasing, since
equal distances are possible) and there are at most `K` of them. -/
theorem C4_group_invariant (records : List DistRecord) (K : Nat)
    (out : List FilteredRecord) (h : process_results records K = Except.ok out)
    (k : String) :
    (out.filter (fun f => decide (f.Rchr = k))).Pairwise
        (fun a b => a.MashD ≤ b.MashD) ∧
      (out.filter (fun f => decide (f.Rchr = k))).length ≤ K := by
  obtain ⟨rfl, -⟩ := process_results_ok h
  rw [filter_buildResult]
  by_cases hk : k ∈ sortedKeys (rowsOf records)
  · rw [if_pos hk]
    refine ⟨pairwise_labelFrom 1 (pairwise_topN _ _ _), ?_⟩
    rw [length_labelFrom, length_topN]
    exact Nat.min_le_left _ _
  · rw [if_neg hk]
    exact ⟨List.Pairwise.nil, Nat.zero_le _⟩

/-- Witness for the amended C4 at the equal-distance table. -/
theorem C4_group_invariant_witness :
    process_results
        [⟨"c.fa", "q1.fa", mkRat 5 100, 0, ""⟩, ⟨"c.fa", "q2.fa", mkRat 5 100, 0, ""⟩] 2 =
      Except.ok [⟨"c", "q1", "SG1", mkRat 5 100⟩, ⟨"c", "q2", "SG2", mkRat 5 100⟩] ∧
    (([⟨"c", "q1", "SG1", mkRat 5 100⟩, ⟨"c", "q2", "SG2", mkRat 5 100⟩] :
        List FilteredRecord).filter (fun f => decide (f.Rchr = "c"))).length ≤ 2 :=
  ⟨by decide,
   (C4_group_invariant
     [⟨"c.fa", "q1.fa", mkRat 5 100, 0, ""⟩, ⟨"c.fa", "q2.fa", mkRat 5 100, 0, ""⟩] 2
     [⟨"c", "q1", "SG1", mkRat 5 100⟩, ⟨"c", "q2", "SG2", mkRat 5 100⟩] (by decide) "c").2⟩

/-- C5: the rows of the final output table are sorted by
reference-chromosome id, and by ascending distance within equal
reference-chromosome ids. -/
theorem C5_output_sorted (records : List DistRecord) (K : Nat)
    (out : List FilteredRecord) (h : process_results records K = Except.ok out) :
    out.Pairwise
      (fun a b => a.Rchr < b.Rchr ∨ (a.Rchr = b.Rchr ∧ a.MashD ≤ b.MashD)) := by
  obtain ⟨rfl, -⟩ := process_results_ok h
  exact (pairwise_buildResult records K).imp fun hab => hab.imp strLt_iff.mp id

/-- Witness for C5 at a two-group table. -/
theorem C5_output_sorted_witness :
    process_results
        [⟨"b.fa", "q1.fa", mkRat 5 100, 0, ""⟩, ⟨"a.fa", "q2.fa", mkRat 7 100, 0, ""⟩] 1 =
      Except.ok [⟨"a", "q2", "SG1", mkRat 7 100⟩, ⟨"b", "q1", "SG1", mkRat 5 100⟩] ∧
    ([⟨"a", "q2", "SG1", mkRat 7 100⟩, ⟨"b", "q1", "SG1", mkRat 5 100⟩] :
        List FilteredRecord).Pairwise
      (fun a b => a.Rchr < b.Rchr ∨ (a.Rchr = b.Rchr ∧ a.MashD ≤ b.MashD)) :=
  ⟨by decide,
   C5_output_sorted
     [⟨"b.fa", "q1.fa", mkRat 5 100, 0, ""⟩, ⟨"a.fa", "q2.fa", mkRat 7 100, 0, ""⟩] 1
     [⟨"a", "q2", "SG1", mkRat 7 100⟩, ⟨"b", "q1", "SG1", mkRat 5 100⟩] (by decide)⟩

/-- C7: on the concrete two-row input from the spec (both records for
reference path `chr1_A.fa`, distances 0.02 and 0.01), the filter with
`K = 1` yields exactly the row (`chr1_A`, `chr2_B`, `SG1`, 0.01); the
chromosome ids are the file paths' base names with the extension
stripped. -/
theorem C7_concrete_example :
    process_results
        [⟨"chr1_A.fa", "chr1_B.fa", mkRat 2 100, 0, ""⟩,
         ⟨"chr1_A.fa", "chr2_B.fa", mkRat 1 100, 0, ""⟩] 1 =
      Except.ok [⟨"chr1_A", "chr2_B", "SG1", mkRat 1 100⟩] := by decide

/-- C8: the selection breaks equal-distance ties stably by input order:
for every distance value `d`, the selected rows of a group that have
distance `d` are exactly the earliest rows of distance `d` of that group
in input order (a front segment of them, expressed with `take`). -/
theorem C8_stable_tie_break (records : List DistRecord) (K : Nat)
    (k : String) (d : ℚ) :
    (topN (rowsOf records) k K).filter (fun x => decide (x.Distance = d)) =
      ((groupRows (rowsOf records) k).filter
          (fun x => decide (x.Distance = d))).take
        (((topN (rowsOf records) k K).filter
            (fun x => decide (x.Distance = d))).length) := by
  unfold topN
  rw [← filter_dist_insertionSort d (groupRows (rowsOf records) k)]
  exact (take_filter_of_filter_take _ _ _).symm

/-- C10: every output row is derived from an input record: its `Rchr` and
`Qchr` are the stems of that record's reference and query paths and its
`MashD` is that record's distance, unchanged. -/
theorem C10_provenance (records : List DistRecord) (K : Nat)
    (out : List FilteredRecord) (h : process_results records K = Except.ok out) :
    ∀ f ∈ out, ∃ r ∈ records,
      stem r.Reference = f.Rchr ∧ stem r.Query = f.Qchr ∧ r.Distance = f.MashD := by
  obtain ⟨rfl, -⟩ := process_results_ok h
  intro f hf
  rw [buildResult] at hf
  obtain ⟨l, hl, hfl⟩ := List.mem_flatten.1 hf
  obtain ⟨k, hk, rfl⟩ := List.mem_map.1 hl
  obtain ⟨x, hx, hfr, hfq, hfd⟩ := mem_labelFrom hfl
  have hxr : x ∈ rowsOf records := (mem_groupRows.1 (topN_subset hx)).1
  obtain ⟨r, hr, rfl⟩ := List.mem_map.1 hxr
  exact ⟨r, hr, hfr.symm, hfq.symm, hfd.symm⟩

/-- Witness for C10 at a one-record table. -/
theorem C10_provenance_witness :
    process_results [⟨"c.fa", "q1.fa", mkRat 5 100, 0, ""⟩] 1 =
      Except.ok [⟨"c", "q1", "SG1", mkRat 5 100⟩] ∧
    ∃ r ∈ ([⟨"c.fa", "q1.fa", mkRat 5 100, 0, ""⟩] : List DistRecord),
      stem r.Reference = "c" ∧ stem r.Query = "q1" ∧ r.Distance = mkRat 5 100 :=
  ⟨by decide,
   C10_provenance [⟨"c.fa", "q1.fa", mkRat 5 100, 0, ""⟩] 1
     [⟨"c", "q1", "SG1", mkRat 5 100⟩] (by decide)
     ⟨"c", "q1", "SG1", mkRat 5 100⟩ (by decide)⟩

/-- C9: whenever one of the external tool invocations returns a nonzero
exit code, the run aborts with the fatal message naming that step and no
later pipeline stage (in particular not the result filter) runs.  The
conjuncts give, for the first failing invocation, the exact trace of
completed stages and the exact message. -/
theorem C9_tool_failure_aborts (e : ToolExitCodes)
    (h : e.seqkitSplitRef ≠ 0 ∨ e.seqkitSplitQry ≠ 0 ∨
      e.mashSketch ≠ 0 ∨ e.mashDist ≠ 0) :
    ((run_calculation e).2.isSome = true ∧
      PipelineStep.processStep ∉ (run_calculation e).1) ∧
    (e.seqkitSplitRef ≠ 0 →
      run_calculation e = ([], some "[ERROR] seqkit split failed")) ∧
    (e.seqkitSplitRef = 0 → e.seqkitSplitQry ≠ 0 →
      run_calculation e = ([.splitRef], some "[ERROR] seqkit split failed")) ∧
    (e.seqkitSplitRef = 0 → e.seqkitSplitQry = 0 → e.mashSketch ≠ 0 →
      run_calculation e =
        ([.splitRef, .splitQry], some "[ERROR] Mash database construction failed")) ∧
    (e.seqkitSplitRef = 0 → e.seqkitSplitQry = 0 → e.mashSketch = 0 →
      e.mashDist ≠ 0 →
      run_calculation e =
        ([.splitRef, .splitQry, .sketch], some "[ERROR] Distance calculation failed")) := by
  obtain ⟨a, b, c, d⟩ := e
  by_cases ha : a = 0 <;> by_cases hb : b = 0 <;> by_cases hc : c = 0 <;>
    by_cases hd : d = 0 <;>
    simp_all [run_calculation, split_fasta, build_mash_db, calculate_distances]

/-- Witness for C9: a failing `mash sketch` invocation. -/
theorem C9_tool_failure_aborts_witness :
    (run_calculation ⟨0, 0, 1, 0⟩).2.isSome = true ∧
      PipelineStep.processStep ∉ (run_calculation ⟨0, 0, 1, 0⟩).1 :=
  (C9_tool_failure_aborts ⟨0, 0, 1, 0⟩ (by decide)).1

/-! ### Re-filtering an already filtered table (claim C6) -/

theorem buildResult_zero (records : List DistRecord) :
    buildResult records 0 = [] := by
  rw [buildResult, List.flatten_eq_nil_iff]
  intro l hl
  obtain ⟨k, -, rfl⟩ := List.mem_map.1 hl
  rw [topN, List.take_zero]
  rfl

theorem topN_ne_nil {rows : List MashRow} {k : String} {n : Nat} (hn : 1 ≤ n)
    (hk : k ∈ rows.map MashRow.RefChr) : topN rows k n ≠ [] := by
  obtain ⟨x, hx, hxk⟩ := List.mem_map.1 hk
  have hgx : x ∈ groupRows rows k := mem_groupRows.2 ⟨hx, hxk⟩
  refine List.length_pos.1 ?_
  rw [length_topN]
  exact lt_min_iff.2 ⟨hn, List.length_pos.2 (List.ne_nil_of_mem hgx)⟩

theorem map_toRow_buildResult (records : List DistRecord) (n : Nat) :
    (buildResult records n).map toRow =
      ((sortedKeys (rowsOf records)).map (fun k => topN (rowsOf records) k n)).flatten := by
  rw [buildResult, List.map_flatten, List.map_map]
  refine congrArg List.flatten (List.map_congr_left ?_)
  intro k _
  exact map_toRow_labelFrom 1 _

theorem sortedKeys_flatten_blocks (rows : List MashRow) (n : Nat) (hn : 1 ≤ n) :
    sortedKeys (((sortedKeys rows).map (fun k => topN rows k n)).flatten) =
      sortedKeys rows := by
  have hmem : ∀ k',
      k' ∈ sortedKeys (((sortedKeys rows).map (fun k => topN rows k n)).flatten) ↔
        k' ∈ sortedKeys rows := by
    intro k'
    rw [mem_sortedKeys]
    constructor
    · intro hk'
      obtain ⟨x, hx, rfl⟩ := List.mem_map.1 hk'
      obtain ⟨l, hl, hxl⟩ := List.mem_flatten.1 hx
      obtain ⟨k, hk, rfl⟩ := List.mem_map.1 hl
      rw [RefChr_topN x hxl]
      exact hk
    · intro hk'
      have hne := topN_ne_nil hn (mem_sortedKeys.1 hk')
      obtain ⟨x, hx⟩ := List.exists_mem_of_ne_nil _ hne
      refine List.mem_map.2 ⟨x, ?_, RefChr_topN x hx⟩
      exact List.mem_flatten.2
        ⟨topN rows k' n, List.mem_map.2 ⟨k', hk', rfl⟩, hx⟩
  exact List.eq_of_perm_of_sorted
    ((List.perm_ext_iff_of_nodup (sortedKeys_nodup _) (sortedKeys_nodup rows)).2 hmem)
    (sortedKeys_sorted _) (sortedKeys_sorted rows)

theorem groupRows_flatten_blocks (rows : List MashRow) (n : Nat) (k : String) :
    groupRows (((sortedKeys rows).map (fun k => topN rows k n)).flatten) k =
      if k ∈ sortedKeys rows then topN rows k n else [] :=
  filter_flatten_keyed MashRow.RefChr _ _ (sortedKeys_nodup rows)
    (fun _ _ x hx => RefChr_topN x hx) k

theorem topN_refilter (rows : List MashRow) (n : Nat) (k : String) :
    topN (((sortedKeys rows).map (fun k => topN rows k n)).flatten) k n =
      topN rows k n := by
  rw [topN, groupRows_flatten_blocks]
  by_cases hk : k ∈ sortedKeys rows
  · rw [if_pos hk, List.Sorted.insertionSort_eq (pairwise_topN rows k n)]
    exact List.take_of_length_le (by rw [length_topN]; exact Nat.min_le_left _ _)
  · rw [if_neg hk]
    have hg : groupRows rows k = [] := by
      apply List.filter_eq_nil_iff.2
      intro x hx hdec
      exact hk (mem_sortedKeys.2 (List.mem_map.2 ⟨x, hx, of_decide_eq_true hdec⟩))
    rw [topN, hg]

/-- C6, counterexample: re-filtering is not the identity on the produced
table, because the chromosome ids get passed once more through
`Path(...).stem`.  A reference path `x.y.fa` yields `Rchr = "x.y"`, and
re-filtering that table strips `"x.y"` to `"x"`, so the result differs
from the table that was fed back in. -/
theorem C6_refilter_counterexample :
    process_results [⟨"x.y.fa", "q.fa", mkRat 1 100, 0, ""⟩] 1 =
        Except.ok [⟨"x.y", "q", "SG1", mkRat 1 100⟩] ∧
      process_results
          (([⟨"x.y", "q", "SG1", mkRat 1 100⟩] : List FilteredRecord).map
            refilterRecord) 1 ≠
        Except.ok [⟨"x.y", "q", "SG1", mkRat 1 100⟩] := by
  constructor
  · decide
  · decide

/-- C6, amended: re-filtering the produced table with the same `K` returns
that same table, provided every chromosome id appearing in it is unchanged
by base-name/extension stripping (in particular contains no dot-suffix
that `Path(...).stem` would remove). -/
theorem C6_refilter_idempotent (records : List DistRecord) (K : Nat)
    (out : List FilteredRecord) (h : process_results records K = Except.ok out)
    (hstem : ∀ f ∈ out, stem f.Rchr = f.Rchr ∧ stem f.Qchr = f.Qchr) :
    process_results (out.map refilterRecord) K = Except.ok out := by
  obtain ⟨rfl, hne⟩ := process_results_ok h
  have hK : 1 ≤ K := by
    rcases Nat.eq_zero_or_pos K with h0 | h1
    · subst h0
      exact absurd (buildResult_zero records) hne
    · exact h1
  have hrows : rowsOf ((buildResult records K).map refilterRecord) =
      ((sortedKeys (rowsOf records)).map
        (fun k => topN (rowsOf records) k K)).flatten := by
    rw [rowsOf, List.map_map, ← map_toRow_buildResult]
    apply List.map_congr_left
    intro f hf
    obtain ⟨h1, h2⟩ := hstem f hf
    simp only [Function.comp, refilterRecord, toRow, h1, h2]
  have hbuild : buildResult ((buildResult records K).map refilterRecord) K =
      buildResult records K := by
    show ((sortedKeys (rowsOf ((buildResult records K).map refilterRecord))).map
        (fun k =>
          labelFrom 1
            (topN (rowsOf ((buildResult records K).map refilterRecord)) k K))).flatten =
      buildResult records K
    rw [hrows, sortedKeys_flatten_blocks _ _ hK]
    simp only [topN_refilter]
    rfl
  rw [process_results_of_ne (by rw [hbuild]; exact hne), hbuild]

/-- Witness for the amended C6 at a dot-free table. -/
theorem C6_refilter_idempotent_witness :
    process_results [⟨"chr1_A.fa", "chr2_B.fa", mkRat 1 100, 0, ""⟩] 1 =
        Except.ok [⟨"chr1_A", "chr2_B", "SG1", mkRat 1 100⟩] ∧
      process_results
          (([⟨"chr1_A", "chr2_B", "SG1", mkRat 1 100⟩] : List FilteredRecord).map
            refilterRecord) 1 =
        Except.ok [⟨"chr1_A", "chr2_B", "SG1", mkRat 1 100⟩] :=
  ⟨by decide,
   C6_refilter_idempotent [⟨"chr1_A.fa", "chr2_B.fa", mkRat 1 100, 0, ""⟩] 1
     [⟨"chr1_A", "chr2_B", "SG1", mkRat 1 100⟩] (by decide) (by decide)⟩

end DivM3
